import Mathlib

/-!
Verification development for the first-light-engine repository.

The repository is a TypeScript inventory/asset-tracking client.  The parts
embedded here are:
  * `src/src/services/aiAssistant.ts` — the rule-based intent parser
    (`AIAssistantService`: `processInput`, `identifyIntent`, `matchesPattern`,
    the six `parse*Intent` helpers, `checkPermissions`,
    `generateActionResponse`, `generateInventoryResponse`).
  * `src/src/components/PinLockScreen.tsx` — PIN entry (`handleDigit`,
    `verifyPin`).
  * `src/src/components/PinLockGuard.tsx` — the guard that decides whether to
    show the lock screen (`checkPin` and the render logic).
  * `src/src/components/profile/SecurityPanel.tsx` — `handlePasswordChange`.

Strings are modelled as `List Char` (`Str`).  JavaScript `toLowerCase` is
modelled character-wise with `Char.toLower`; all keywords the code matches on
are ASCII, where the two functions agree.  Calls into third-party libraries
(the `compromise` NLP library, JavaScript regular expressions, `bcryptjs`,
the Supabase client) are modelled as oracle parameters: the embedded
functions are parametric in their results, exactly as the source code is.
-/

/-- Strings are modelled as lists of characters. -/
abbrev Str := List Char

/-- Shorthand turning a Lean string literal into the `List Char` model. -/
def lit (s : String) : Str := s.toList

/-- Character-wise lowercasing, the model of JavaScript `toLowerCase` (the
source only ever matches ASCII keywords, where the two agree). -/
def toLowerStr (s : Str) : Str := s.map Char.toLower

/-- Model of JavaScript `text.includes(keyword)`: contiguous-substring test. -/
def includes (text keyword : Str) : Bool := decide (keyword <:+: text)

/-- Model of JavaScript `String.prototype.trim`. -/
def strTrim (s : Str) : Str :=
  ((s.dropWhile Char.isWhitespace).reverse.dropWhile Char.isWhitespace).reverse

/-- The `action` field of `AIIntent` in `aiAssistant.ts` (the string-literal
union type at the top of the file). -/
inductive AIAction
  | create_waybill
  | add_asset
  | process_return
  | create_site
  | add_employee
  | add_vehicle
  | generate_report
  | view_analytics
  | send_to_site
  | check_inventory
  | update_asset
  | unknown
deriving DecidableEq, Repr

/-- The wire name of an action (the string literal used in the source). -/
def actionName : AIAction → Str
  | .create_waybill => lit "create_waybill"
  | .add_asset => lit "add_asset"
  | .process_return => lit "process_return"
  | .create_site => lit "create_site"
  | .add_employee => lit "add_employee"
  | .add_vehicle => lit "add_vehicle"
  | .generate_report => lit "generate_report"
  | .view_analytics => lit "view_analytics"
  | .send_to_site => lit "send_to_site"
  | .check_inventory => lit "check_inventory"
  | .update_asset => lit "update_asset"
  | .unknown => lit "unknown"

/-- Model of `action.replace(/_/g, ' ')`. -/
def underscoreToSpace (s : Str) : Str :=
  s.map fun c => if c = '_' then ' ' else c

/-- An item found by `findAssetsInText` (`{ id, name, quantity? }`). -/
structure FoundItem where
  id : Str
  name : Str
  quantity : Option Int
deriving DecidableEq, Repr

/-- A value stored in the `parameters` record of an intent.  The source
stores strings, numbers (`parseInt` results) and arrays of found items. -/
inductive ParamValue
  | str (s : Str)
  | num (n : Int)
  | items (l : List FoundItem)
deriving DecidableEq, Repr

/-- The `parameters` record, as an insertion-ordered association list. -/
abbrev Params := List (Str × ParamValue)

/-- JavaScript truthiness of a (possibly absent) parameter value: an absent
property and the empty string are falsy, `0` is falsy, arrays are truthy. -/
def truthy : Option ParamValue → Bool
  | none => false
  | some (.str s) => decide (s ≠ [])
  | some (.num n) => decide (n ≠ 0)
  | some (.items _) => true

/-- Extract the string payload of a parameter value, when it is a string. -/
def getStr : Option ParamValue → Option Str
  | some (.str s) => some s
  | _ => none

/-- String interpolation of a parameter (`undefined` prints as such in JS). -/
def paramStr (ps : Params) (k : Str) : Str :=
  (getStr (ps.lookup k)).getD (lit "undefined")

/-- `AIIntent` from `aiAssistant.ts`. -/
structure AIIntent where
  action : AIAction
  confidence : ℚ
  parameters : Params
  missingParameters : List Str
deriving DecidableEq, Repr

/-- The `suggestedAction.type` union. -/
inductive SAType
  | open_form
  | execute_action
  | clarify
deriving DecidableEq, Repr

/-- The `suggestedAction.data` payloads the source constructs. -/
inductive SAData
  | form (formType : Str) (prefillData : Params)
  | exec (action : Str) (parameters : Params)
deriving DecidableEq, Repr

/-- `suggestedAction` of an `AIResponse`. -/
structure SuggestedAction where
  type : SAType
  data : Option SAData
deriving DecidableEq, Repr

/-- `AIResponse` from `aiAssistant.ts`. -/
structure AIResponse where
  success : Bool
  message : Str
  intent : Option AIIntent
  suggestedAction : Option SuggestedAction
deriving DecidableEq, Repr

/-- `UserRole`, as enumerated by the keys of the `rolePermissions` table in
`checkPermissions`. -/
inductive UserRole
  | admin
  | data_entry_supervisor
  | regulatory
  | manager
  | staff
deriving DecidableEq, Repr

/-- The wire name of a role. -/
def roleName : UserRole → Str
  | .admin => lit "admin"
  | .data_entry_supervisor => lit "data_entry_supervisor"
  | .regulatory => lit "regulatory"
  | .manager => lit "manager"
  | .staff => lit "staff"

/-- `Site` (fields of `@/types/asset` used by the assistant). -/
structure Site where
  id : Str
  name : Str
deriving DecidableEq, Repr

/-- `Employee` (fields used by the assistant). -/
structure Employee where
  id : Str
  name : Str
deriving DecidableEq, Repr

/-- `Vehicle` (fields used by the assistant).  `registration_number` is
optional; the source falls back to `name` when it is absent or empty. -/
structure Vehicle where
  id : Str
  registration_number : Option Str
  name : Str
deriving DecidableEq, Repr

/-- `Asset` (fields used by the assistant). -/
structure Asset where
  id : Str
  name : Str
  quantity : Int
  unitOfMeasurement : Str
  availableQuantity : Option Int
  siteQuantities : Option (List (Str × Int))
deriving DecidableEq, Repr

/-- The private fields of `AIAssistantService`. -/
structure AIState where
  userRole : UserRole
  assets : List Asset
  sites : List Site
  employees : List Employee
  vehicles : List Vehicle
deriving Repr

/-- `updateContext` replaces the four context lists, leaving the role. -/
def updateContext (st : AIState) (assets : List Asset) (sites : List Site)
    (employees : List Employee) (vehicles : List Vehicle) : AIState :=
  { st with assets := assets, sites := sites,
            employees := employees, vehicles := vehicles }

/-- Results of the external text-processing calls the parsers make: the
`compromise` library (`doc.numbers().out('array')`), JavaScript `parseInt`,
and the first capture group of each regular-expression `match` call in the
source.  The embedding is parametric in these, as the code is in the
libraries. -/
structure NLPOracle where
  /-- `doc.numbers().out('array')` on the lowercased input. -/
  numbers : Str → List Str
  /-- JavaScript `parseInt` on a numbers-array entry. -/
  jsParseInt : Str → Int
  /-- capture 1 of `/for\s+(.+?)(?:\s+with|\s+to|\.|$)/i` (waybill purpose). -/
  waybillPurpose : Str → Option Str
  /-- capture 1 of the asset-name regex in `parseAssetIntent`. -/
  assetNameCap : Str → Option Str
  /-- capture 1 of the unit regex in `parseAssetIntent`. -/
  unitCap : Str → Option Str
  /-- capture 1 of the site-name regex in `parseSiteIntent`. -/
  siteNameCap : Str → Option Str
  /-- capture 1 of the address regex in `parseSiteIntent`. -/
  addressCap : Str → Option Str

/-- `matchesPattern`: every keyword occurs as a substring of the text. -/
def matchesPattern (text : Str) (keywords : List Str) : Bool :=
  keywords.all fun keyword => includes text keyword

/-- `findSiteInText`: the first site whose lowercased name is a substring. -/
def findSiteInText (sites : List Site) (text : Str) : Option Site :=
  sites.find? fun site => includes (toLowerStr text) (toLowerStr site.name)

/-- First index at which `k` occurs in `t` (model of `indexOf`; only called
when the occurrence exists). -/
def indexOfStr : Str → Str → Nat
  | _, [] => 0
  | [], _ => 0
  | t@(_ :: ts), k => if (k <+: t : Prop) then 0 else indexOfStr ts k + 1

/-- Capture of `/(\d+)\s*$/`: the maximal digit run at the end of the text,
ignoring trailing whitespace; `none` when there is no digit there. -/
def trailingNumber (s : Str) : Option Str :=
  let rev := s.reverse.dropWhile Char.isWhitespace
  let ds := (rev.takeWhile Char.isDigit).reverse
  if ds = [] then none else some ds

/-- Decimal value of a digit string (JavaScript `parseInt` on a pure digit
string). -/
def decValue (s : Str) : Int :=
  (s.foldl (fun acc c => acc * 10 + c.toNat - '0'.toNat) 0 : Nat)

/-- `findAssetsInText`: every asset whose lowercased name is a substring of
the text, with a quantity read from the 20 characters before the match. -/
def findAssetsInText (assets : List Asset) (text : Str) : List FoundItem :=
  assets.filterMap fun asset =>
    let assetNameLower := toLowerStr asset.name
    if includes text assetNameLower then
      let assetIndex := indexOfStr text assetNameLower
      let start := assetIndex - 20
      let beforeText := (text.drop start).take (assetIndex - start)
      some { id := asset.id, name := asset.name,
             quantity := (trailingNumber beforeText).map decValue }
    else none

/-- `findEmployeeInText`. -/
def findEmployeeInText (employees : List Employee) (text : Str) :
    Option Employee :=
  employees.find? fun employee =>
    includes (toLowerStr text) (toLowerStr employee.name)

/-- The display registration of a vehicle (`registration_number || name`;
JavaScript `||` also skips the empty string). -/
def vehicleReg (v : Vehicle) : Str :=
  match v.registration_number with
  | some r => if r = [] then v.name else r
  | none => v.name

/-- `findVehicleInText`. -/
def findVehicleInText (vehicles : List Vehicle) (text : Str) :
    Option Vehicle :=
  vehicles.find? fun vehicle =>
    includes (toLowerStr text) (toLowerStr (vehicleReg vehicle))

/-- `parseWaybillIntent`.  (The source also computes `doc.numbers()` here but
never uses the result.) -/
def parseWaybillIntent (o : NLPOracle) (st : AIState) (text : Str) :
    AIIntent :=
  let siteM := findSiteInText st.sites text
  let items := findAssetsInText st.assets text
  let empM := findEmployeeInText st.employees text
  let vehM := findVehicleInText st.vehicles text
  let purM := o.waybillPurpose text
  { action := .create_waybill
    confidence := 0.8
    parameters :=
      (match siteM with
       | some site => [(lit "siteName", .str site.name),
                       (lit "siteId", .str site.id)]
       | none => []) ++
      (if items.length > 0 then [(lit "items", .items items)] else []) ++
      (match empM with
       | some employee => [(lit "driver", .str employee.name),
                           (lit "driverId", .str employee.id)]
       | none => []) ++
      (match vehM with
       | some vehicle => [(lit "vehicle", .str (vehicleReg vehicle)),
                          (lit "vehicleId", .str vehicle.id)]
       | none => []) ++
      (match purM with
       | some cap => [(lit "purpose", .str (strTrim cap))]
       | none => [])
    missingParameters :=
      (match siteM with | some _ => [] | none => [lit "site"]) ++
      (if items.length > 0 then [] else [lit "items"]) }

/-- `parseAssetIntent`. -/
def parseAssetIntent (o : NLPOracle) (text : Str) : AIIntent :=
  let nameM := o.assetNameCap text
  let numbers := o.numbers text
  { action := .add_asset
    confidence := 0.8
    parameters :=
      (match nameM with
       | some cap => [(lit "name", .str (strTrim cap))]
       | none => []) ++
      (match numbers with
       | n :: _ => [(lit "quantity", .num (o.jsParseInt n))]
       | [] => []) ++
      (if includes text (lit "dewatering") then
        [(lit "category", .str (lit "dewatering"))]
       else if includes text (lit "waterproofing") then
        [(lit "category", .str (lit "waterproofing"))]
       else if includes text (lit "consumable") then
        [(lit "type", .str (lit "consumable"))]
       else if includes text (lit "equipment") then
        [(lit "type", .str (lit "equipment"))]
       else []) ++
      (match o.unitCap text with
       | some cap => [(lit "unit", .str cap)]
       | none => [])
    missingParameters :=
      (match nameM with | some _ => [] | none => [lit "name"]) ++
      (match numbers with | _ :: _ => [] | [] => [lit "quantity"]) }

/-- `parseReturnIntent`. -/
def parseReturnIntent (st : AIState) (text : Str) : AIIntent :=
  let siteM := findSiteInText st.sites text
  let items := findAssetsInText st.assets text
  { action := .process_return
    confidence := 0.75
    parameters :=
      (match siteM with
       | some site => [(lit "siteName", .str site.name),
                       (lit "siteId", .str site.id)]
       | none => []) ++
      (if items.length > 0 then [(lit "items", .items items)] else [])
    missingParameters :=
      (match siteM with | some _ => [] | none => [lit "site"]) ++
      (if items.length > 0 then [] else [lit "items"]) }

/-- `parseSiteIntent`. -/
def parseSiteIntent (o : NLPOracle) (text : Str) : AIIntent :=
  { action := .create_site
    confidence := 0.7
    parameters :=
      (match o.siteNameCap text with
       | some cap => [(lit "name", .str (strTrim cap))]
       | none => []) ++
      (match o.addressCap text with
       | some cap => [(lit "address", .str (strTrim cap))]
       | none => [])
    missingParameters :=
      (match o.siteNameCap text with | some _ => [] | none => [lit "name"]) }

/-- `parseInventoryCheckIntent`. -/
def parseInventoryCheckIntent (st : AIState) (text : Str) : AIIntent :=
  let assetM := (findAssetsInText st.assets text).head?
  let siteM := findSiteInText st.sites text
  { action := .check_inventory
    confidence := 0.85
    parameters :=
      (match assetM with
       | some asset => [(lit "assetName", .str asset.name),
                        (lit "assetId", .str asset.id)]
       | none => []) ++
      (match siteM with
       | some site => [(lit "siteName", .str site.name),
                       (lit "siteId", .str site.id)]
       | none => [])
    missingParameters := [] }

/-- `parseAnalyticsIntent`. -/
def parseAnalyticsIntent (st : AIState) (text : Str) : AIIntent :=
  { action := .view_analytics
    confidence := 0.75
    parameters :=
      (if includes text (lit "consumable") then
        [(lit "type", .str (lit "consumable"))]
       else if includes text (lit "equipment") || includes text (lit "machine")
       then [(lit "type", .str (lit "equipment"))]
       else if includes text (lit "site") then
        [(lit "type", .str (lit "site"))]
       else []) ++
      (match findSiteInText st.sites text with
       | some site => [(lit "siteName", .str site.name),
                       (lit "siteId", .str site.id)]
       | none => [])
    missingParameters := [] }

/-- The fallback intent `identifyIntent` returns when nothing matches. -/
def unknownIntent : AIIntent :=
  { action := .unknown, confidence := 0, parameters := [],
    missingParameters := [] }

/-- `identifyIntent`: the ordered keyword-group dispatch. -/
def identifyIntent (o : NLPOracle) (st : AIState) (rawInput : Str) :
    AIIntent :=
  let text := toLowerStr rawInput
  if matchesPattern text [lit "create", lit "waybill"] ||
     matchesPattern text [lit "new", lit "waybill"] ||
     matchesPattern text [lit "send", lit "site"] ||
     matchesPattern text [lit "dispatch"] then
    parseWaybillIntent o st text
  else if matchesPattern text [lit "add", lit "asset"] ||
     matchesPattern text [lit "new", lit "asset"] ||
     matchesPattern text [lit "add", lit "item"] ||
     matchesPattern text [lit "create", lit "asset"] then
    parseAssetIntent o text
  else if matchesPattern text [lit "process", lit "return"] ||
     matchesPattern text [lit "return", lit "from"] ||
     matchesPattern text [lit "receive", lit "back"] then
    parseReturnIntent st text
  else if matchesPattern text [lit "create", lit "site"] ||
     matchesPattern text [lit "add", lit "site"] ||
     matchesPattern text [lit "new", lit "site"] then
    parseSiteIntent o text
  else if matchesPattern text [lit "check", lit "inventory"] ||
     matchesPattern text [lit "show", lit "stock"] ||
     matchesPattern text [lit "inventory", lit "level"] ||
     matchesPattern text [lit "how", lit "many"] then
    parseInventoryCheckIntent st text
  else if matchesPattern text [lit "show", lit "analytics"] ||
     matchesPattern text [lit "view", lit "analytics"] ||
     matchesPattern text [lit "report"] ||
     matchesPattern text [lit "statistics"] then
    parseAnalyticsIntent st text
  else
    unknownIntent

/-- Decimal rendering of an integer (JavaScript template interpolation of a
number; integers print identically in both). -/
def intToStr (n : Int) : Str := (toString n).toList

/-- Decimal rendering of a natural number. -/
def natToStr (n : Nat) : Str := (toString n).toList

/-- The `rolePermissions` table of `checkPermissions`. -/
def rolePermissions : UserRole → List AIAction
  | .admin =>
    [.create_waybill, .add_asset, .process_return, .create_site,
     .add_employee, .add_vehicle, .generate_report, .view_analytics,
     .send_to_site, .check_inventory, .update_asset]
  | .data_entry_supervisor =>
    [.create_waybill, .add_asset, .process_return, .check_inventory,
     .view_analytics, .send_to_site, .update_asset]
  | .regulatory =>
    [.check_inventory, .view_analytics, .generate_report]
  | .manager =>
    [.create_waybill, .add_asset, .process_return, .check_inventory,
     .view_analytics, .generate_report, .send_to_site]
  | .staff =>
    [.check_inventory, .view_analytics]

/-- Result of `checkPermissions`. -/
structure PermCheck where
  allowed : Bool
  message : Str
deriving DecidableEq, Repr

/-- The permission-denied message built in `checkPermissions`. -/
def deniedMessage (role : UserRole) (action : AIAction) : Str :=
  lit "You don\x27t have permission to perform this action. Your role (" ++
  roleName role ++ lit ") cannot execute: " ++
  underscoreToSpace (actionName action)

/-- `checkPermissions`. -/
def checkPermissions (role : UserRole) (action : AIAction) : PermCheck :=
  let allowed := (rolePermissions role).contains action
  if allowed = false then
    { allowed := false, message := deniedMessage role action }
  else
    { allowed := true, message := [] }

/-- `generateClarificationMessage`. -/
def generateClarificationMessage (intent : AIIntent) : Str :=
  lit "I understand you want to " ++
  underscoreToSpace (actionName intent.action) ++
  lit ". However, I need more information about: " ++
  List.intercalate (lit ", ") intent.missingParameters ++
  lit ". Please provide these details."

/-- Site-quantity of an asset at a site id (`asset.siteQuantities[siteId]`);
`none` models JavaScript `undefined`. -/
def siteQtyAt (asset : Asset) (siteId : Str) : Option Int :=
  match asset.siteQuantities with
  | some m => m.lookup siteId
  | none => none

/-- `generateInventoryResponse`. -/
def generateInventoryResponse (st : AIState) (params : Params) : AIResponse :=
  let message :=
    if truthy (params.lookup (lit "assetId")) then
      let aid := (getStr (params.lookup (lit "assetId"))).getD []
      match st.assets.find? fun a => a.id = aid with
      | some asset =>
        asset.name ++ lit ": " ++ intToStr asset.quantity ++ lit " " ++
        asset.unitOfMeasurement ++ lit " in stock" ++
        (match asset.availableQuantity with
         | some aq => lit " (" ++ intToStr aq ++ lit " available)"
         | none => []) ++
        (if truthy (params.lookup (lit "siteId")) &&
            asset.siteQuantities.isSome then
          let sid := (getStr (params.lookup (lit "siteId"))).getD []
          match siteQtyAt asset sid with
          | some siteQty =>
            lit ", " ++ intToStr siteQty ++ lit " at " ++
            paramStr params (lit "siteName")
          | none => []
         else [])
      | none => lit "Asset not found: " ++ paramStr params (lit "assetName")
    else if truthy (params.lookup (lit "siteId")) then
      let sid := (getStr (params.lookup (lit "siteId"))).getD []
      let siteAssets := st.assets.filter fun a =>
        match siteQtyAt a sid with
        | some v => decide (0 < v)
        | none => false
      paramStr params (lit "siteName") ++ lit " has " ++
      natToStr siteAssets.length ++ lit " different items. " ++
      List.intercalate (lit ", ")
        ((siteAssets.take 5).map fun a =>
          a.name ++ lit ": " ++
          (match siteQtyAt a sid with
           | some v => intToStr v
           | none => lit "undefined")) ++
      (if siteAssets.length > 5 then
        lit " and " ++ natToStr (siteAssets.length - 5) ++ lit " more..."
       else [])
    else
      let totalAssets := st.assets.length
      let totalQty := st.assets.foldl (fun sum a => sum + a.quantity) 0
      let lowStock := (st.assets.filter fun a =>
        decide (0 < a.quantity) && decide (a.quantity < 10)).length
      let outOfStock := (st.assets.filter fun a =>
        decide (a.quantity = 0)).length
      lit "Total inventory: " ++ natToStr totalAssets ++ lit " items (" ++
      intToStr totalQty ++ lit " units). " ++
      (if lowStock > 0 then
        natToStr lowStock ++ lit " items low on stock. " else []) ++
      (if outOfStock > 0 then
        natToStr outOfStock ++ lit " items out of stock." else [])
  { success := true
    message := message
    intent := some { action := .check_inventory, confidence := 0.9,
                     parameters := params, missingParameters := [] }
    suggestedAction := none }

/-- `generateActionResponse`: the switch on the intent action. -/
def generateActionResponse (st : AIState) (intent : AIIntent) : AIResponse :=
  match intent.action with
  | .create_waybill =>
    { success := true
      message := lit "I\x27ll help you create a waybill" ++
        (if truthy (intent.parameters.lookup (lit "siteName")) then
          lit " for " ++ paramStr intent.parameters (lit "siteName")
         else []) ++ lit "."
      intent := some intent
      suggestedAction := some ⟨.open_form,
        some (.form (lit "waybill") intent.parameters)⟩ }
  | .add_asset =>
    { success := true
      message := lit "I\x27ll help you add" ++
        (if truthy (intent.parameters.lookup (lit "name")) then
          lit " " ++ paramStr intent.parameters (lit "name")
         else lit " a new asset") ++ lit " to the inventory."
      intent := some intent
      suggestedAction := some ⟨.open_form,
        some (.form (lit "asset") intent.parameters)⟩ }
  | .process_return =>
    { success := true
      message := lit "I\x27ll help you process a return" ++
        (if truthy (intent.parameters.lookup (lit "siteName")) then
          lit " from " ++ paramStr intent.parameters (lit "siteName")
         else []) ++ lit "."
      intent := some intent
      suggestedAction := some ⟨.open_form,
        some (.form (lit "return") intent.parameters)⟩ }
  | .check_inventory => generateInventoryResponse st intent.parameters
  | .view_analytics =>
    { success := true
      message := lit "Opening analytics dashboard" ++
        (if truthy (intent.parameters.lookup (lit "siteName")) then
          lit " for " ++ paramStr intent.parameters (lit "siteName")
         else []) ++ lit "."
      intent := some intent
      suggestedAction := some ⟨.execute_action,
        some (.exec (lit "open_analytics") intent.parameters)⟩ }
  | .create_site =>
    { success := true
      message := lit "I\x27ll help you create a new site" ++
        (if truthy (intent.parameters.lookup (lit "name")) then
          lit " called " ++ paramStr intent.parameters (lit "name")
         else []) ++ lit "."
      intent := some intent
      suggestedAction := some ⟨.open_form,
        some (.form (lit "site") intent.parameters)⟩ }
  | _ =>
    { success := false
      message := lit "I\x27m not sure what you want me to do. Can you rephrase that?"
      intent := some intent
      suggestedAction := none }

/-- `processInput`, in state-passing style: the method reads the service
fields and returns the response; it contains no assignment to them, so the
state component of the result is the input state. -/
def processInput (o : NLPOracle) (st : AIState) (userInput : Str) :
    AIResponse × AIState :=
  let intent := identifyIntent o st userInput
  let permissionCheck := checkPermissions st.userRole intent.action
  if permissionCheck.allowed = false then
    ({ success := false, message := permissionCheck.message,
       intent := some intent, suggestedAction := none }, st)
  else if intent.missingParameters.length > 0 then
    ({ success := false, message := generateClarificationMessage intent,
       intent := some intent,
       suggestedAction := some ⟨.clarify, none⟩ }, st)
  else
    (generateActionResponse st intent, st)

/-- `maxLength` in `PinLockScreen.tsx`. -/
def maxLength : Nat := 4

/-- `handleDigit` of `PinLockScreen`: the functional `setPin` update.
Returns the new pin and whether `verifyPin` is scheduled (the source calls
`setTimeout(() => verifyPin(newPin), 0)` exactly when the new pin reaches
`maxLength`). -/
def handleDigit (pin : Str) (digit : Char) : Str × Bool :=
  if pin.length ≥ maxLength then (pin, false)
  else
    let newPin := pin ++ [digit]
    (newPin, decide (newPin.length = maxLength))

/-- `handleDelete` of `PinLockScreen` (`pin.slice(0, -1)`). -/
def handleDelete (pin : Str) : Str :=
  pin.take (pin.length - 1)

/-- Folding a sequence of digit presses through `handleDigit`. -/
def pressDigits (pin : Str) (digits : List Char) : Str :=
  digits.foldl (fun p d => (handleDigit p d).1) pin

/-- Outcome of the remote `pin_hash` fetch in `verifyPin`
(`supabase.from('users').select('pin_hash')...single()`):
either the promise rejects (network error), or it resolves with a database
error, or it resolves with a row whose `pin_hash` may be null. -/
inductive FetchRes
  | throwNet
  | dbError
  | ok (pinHash : Option Str)
deriving DecidableEq, Repr

/-- The environment `verifyPin` reads: the `currentUser` entry of
`localStorage` (modelled as the parsed user id), the cached
`pin_hash_<userId>` entry, the remote fetch outcome, and the third-party
`bcrypt.compare` function, which the component treats as an opaque oracle. -/
structure PinEnv where
  storedUserId : Option Str
  cachedHash : Option Str
  fetchResult : FetchRes
  bcryptCompare : Str → Str → Bool

/-- Observable outcome of one `verifyPin` run: whether `onUnlock` was
called, the error message set (if any), the pin state afterwards (the source
clears it on a failed comparison), and the value written to the
`pin_hash_<userId>` cache (if any). -/
structure PinOutcome where
  unlocked : Bool
  error : Option Str
  pin : Str
  cachedWrite : Option Str
deriving DecidableEq, Repr

/-- The comparison step at the end of `verifyPin`. -/
def pinCompareStep (env : PinEnv) (enteredPin pinHash : Str)
    (cachedWrite : Option Str) : PinOutcome :=
  if env.bcryptCompare enteredPin pinHash then
    { unlocked := true, error := none, pin := enteredPin,
      cachedWrite := cachedWrite }
  else
    { unlocked := false, error := some (lit "Incorrect PIN"), pin := [],
      cachedWrite := cachedWrite }

/-- `verifyPin` of `PinLockScreen`. -/
def verifyPin (env : PinEnv) (enteredPin : Str) : PinOutcome :=
  match env.storedUserId with
  | none =>
    { unlocked := false, error := some (lit "Session expired"),
      pin := enteredPin, cachedWrite := none }
  | some _userId =>
    match env.cachedHash with
    | some pinHash => pinCompareStep env enteredPin pinHash none
    | none =>
      match env.fetchResult with
      | .ok (some pinHash) =>
        pinCompareStep env enteredPin pinHash (some pinHash)
      | .ok none =>
        { unlocked := true, error := none, pin := enteredPin,
          cachedWrite := none }
      | .dbError =>
        { unlocked := false,
          error := some (lit "OFFLINE: Cannot verify PIN. Connect to internet."),
          pin := enteredPin, cachedWrite := none }
      | .throwNet =>
        { unlocked := false,
          error := some (lit "OFFLINE: Cannot verify PIN. Connect to internet."),
          pin := enteredPin, cachedWrite := none }

/-- The hash `verifyPin` ends up comparing against: the cached one, else the
successfully fetched one. -/
def resolvedHash (env : PinEnv) : Option Str :=
  match env.cachedHash with
  | some h => some h
  | none =>
    match env.fetchResult with
    | .ok (some h) => some h
    | _ => none

/-- Outcome of the `pin_hash` query in `PinLockGuard.checkPin`. -/
inductive QueryRes
  | ok (pinHash : Option Str)
  | err
deriving DecidableEq, Repr

/-- Inputs `PinLockGuard` reads: authentication state, the current user id
(JavaScript truthiness: absent or empty is falsy), and the session unlock
flag (`sessionStorage['pin_unlocked'] === 'true'`). -/
structure GuardInput where
  isAuthenticated : Bool
  currentUserId : Option Str
  sessionUnlocked : Bool
deriving Repr

/-- Truthiness of `currentUser?.id`. -/
def idTruthy (inp : GuardInput) : Bool :=
  match inp.currentUserId with
  | some s => decide (s ≠ [])
  | none => false

/-- True when the query found a non-null hash. -/
def hasHash : QueryRes → Bool
  | .ok (some _) => true
  | _ => false

/-- State of `PinLockGuard` once its effect has settled:
`(isLocked, session flag afterwards)`. -/
def guardState (inp : GuardInput) (q : QueryRes) : Bool × Bool :=
  if inp.isAuthenticated = false || idTruthy inp = false then
    (false, inp.sessionUnlocked)
  else if inp.sessionUnlocked then (false, true)
  else
    match q with
    | .ok (some _) => (true, inp.sessionUnlocked)
    | .ok none => (false, true)
    | .err => (false, true)

/-- What `PinLockGuard` renders once `checking` is false. -/
inductive GuardRender
  | lockScreen
  | app
deriving DecidableEq, Repr

/-- The render decision of `PinLockGuard` after the effect settles. -/
def guardRender (inp : GuardInput) (q : QueryRes) : GuardRender :=
  if (guardState inp q).1 && inp.isAuthenticated then .lockScreen else .app

/-- The password form state of `SecurityPanel`. -/
structure PwForm where
  currentPassword : Str
  newPassword : Str
  confirmPassword : Str
deriving DecidableEq, Repr

/-- Observable outcome of `handlePasswordChange`: the toasts raised
(`(isError, text)` in order), the form fields afterwards, and whether the
dialog is still open. -/
structure PwOutcome where
  toasts : List (Bool × Str)
  form : PwForm
  dialogOpen : Bool
deriving DecidableEq, Repr

/-- The four validation guards at the top of `handlePasswordChange`. -/
def passesValidation (form : PwForm) : Bool :=
  decide (strTrim form.currentPassword ≠ []) &&
  decide (strTrim form.newPassword ≠ []) &&
  decide (form.newPassword = form.confirmPassword) &&
  decide (form.newPassword.length ≥ 8)

/-- `handlePasswordChange` of `SecurityPanel`, parametric in whether the
awaited update call (`onPasswordChange` or `updateUser`) resolves
(`updateOk = true`) or rejects.  The dialog is open when the handler runs. -/
def handlePasswordChange (form : PwForm) (updateOk : Bool) : PwOutcome :=
  if strTrim form.currentPassword = [] then
    { toasts := [(true, lit "Current password is required")],
      form := form, dialogOpen := true }
  else if strTrim form.newPassword = [] then
    { toasts := [(true, lit "New password is required")],
      form := form, dialogOpen := true }
  else if form.newPassword ≠ form.confirmPassword then
    { toasts := [(true, lit "Passwords do not match")],
      form := form, dialogOpen := true }
  else if form.newPassword.length < 8 then
    { toasts := [(true, lit "Password must be at least 8 characters")],
      form := form, dialogOpen := true }
  else if updateOk then
    { toasts := [(false, lit "Password changed successfully")],
      form := { currentPassword := [], newPassword := [],
                confirmPassword := [] },
      dialogOpen := false }
  else
    { toasts := [(true, lit "Failed to change password")],
      form := form, dialogOpen := true }

/-- One keyword group of `identifyIntent`: its patterns (each a keyword
list), the action of the intent its parser returns, and the parser itself. -/
structure IntentGroup where
  patterns : List (List Str)
  action : AIAction
  parse : NLPOracle → AIState → Str → AIIntent

/-- A group matches when one of its patterns does. -/
def matchesGroup (text : Str) (g : IntentGroup) : Bool :=
  g.patterns.any fun keywords => matchesPattern text keywords

/-- Group 1 of `identifyIntent`: waybill creation. -/
def waybillGroup : IntentGroup :=
  ⟨[[lit "create", lit "waybill"], [lit "new", lit "waybill"],
    [lit "send", lit "site"], [lit "dispatch"]],
   .create_waybill, parseWaybillIntent⟩

/-- Group 2 of `identifyIntent`: asset addition. -/
def assetGroup : IntentGroup :=
  ⟨[[lit "add", lit "asset"], [lit "new", lit "asset"],
    [lit "add", lit "item"], [lit "create", lit "asset"]],
   .add_asset, fun o _st text => parseAssetIntent o text⟩

/-- Group 3 of `identifyIntent`: return processing. -/
def returnGroup : IntentGroup :=
  ⟨[[lit "process", lit "return"], [lit "return", lit "from"],
    [lit "receive", lit "back"]],
   .process_return, fun _o st text => parseReturnIntent st text⟩

/-- Group 4 of `identifyIntent`: site creation. -/
def siteGroup : IntentGroup :=
  ⟨[[lit "create", lit "site"], [lit "add", lit "site"],
    [lit "new", lit "site"]],
   .create_site, fun o _st text => parseSiteIntent o text⟩

/-- Group 5 of `identifyIntent`: inventory check. -/
def inventoryGroup : IntentGroup :=
  ⟨[[lit "check", lit "inventory"], [lit "show", lit "stock"],
    [lit "inventory", lit "level"], [lit "how", lit "many"]],
   .check_inventory, fun _o st text => parseInventoryCheckIntent st text⟩

/-- Group 6 of `identifyIntent`: analytics. -/
def analyticsGroup : IntentGroup :=
  ⟨[[lit "show", lit "analytics"], [lit "view", lit "analytics"],
    [lit "report"], [lit "statistics"]],
   .view_analytics, fun _o st text => parseAnalyticsIntent st text⟩

/-- The fixed ordered list of keyword groups `identifyIntent` tests:
waybill creation, asset addition, return processing, site creation,
inventory check, analytics. -/
def intentGroups : List IntentGroup :=
  [waybillGroup, assetGroup, returnGroup, siteGroup, inventoryGroup,
   analyticsGroup]

/-- The `formType` string `generateActionResponse` puts in the `open_form`
suggestion of each form-opening action. -/
def formTypeOf : AIAction → Str
  | .create_waybill => lit "waybill"
  | .add_asset => lit "asset"
  | .process_return => lit "return"
  | .create_site => lit "site"
  | _ => []

/-- An oracle whose external calls all come back empty, used for concrete
witness evaluations. -/
def noOracle : NLPOracle :=
  { numbers := fun _ => []
    jsParseInt := fun _ => 0
    waybillPurpose := fun _ => none
    assetNameCap := fun _ => none
    unitCap := fun _ => none
    siteNameCap := fun _ => none
    addressCap := fun _ => none }

/-- A concrete site for witness evaluations. -/
def demoSite : Site := { id := lit "s1", name := lit "alpha" }

/-- A concrete asset for witness evaluations. -/
def demoAsset : Asset :=
  { id := lit "a1", name := lit "pump", quantity := 7,
    unitOfMeasurement := lit "units", availableQuantity := some 5,
    siteQuantities := some [(lit "s1", 3)] }

/-- A concrete service state for witness evaluations. -/
def demoState : AIState :=
  { userRole := .admin, assets := [demoAsset], sites := [demoSite],
    employees := [], vehicles := [] }

/-- A service state with empty context lists, for witness evaluations. -/
def emptyState : AIState :=
  { userRole := .staff, assets := [], sites := [], employees := [],
    vehicles := [] }


/-- A concrete environment with a cached hash, for witness evaluations.  Its
bcrypt oracle accepts exactly the pin "1234" against the hash "hashA". -/
def pinEnvCached : PinEnv :=
  { storedUserId := some (lit "u1")
    cachedHash := some (lit "hashA")
    fetchResult := .ok none
    bcryptCompare := fun p h => p == lit "1234" && h == lit "hashA" }

/-- A concrete environment with no cached hash and a successful fetch. -/
def pinEnvFetchOk : PinEnv :=
  { storedUserId := some (lit "u1")
    cachedHash := none
    fetchResult := .ok (some (lit "hashA"))
    bcryptCompare := fun p h => p == lit "1234" && h == lit "hashA" }

/-- A concrete environment with no cached hash where the fetch succeeds but
the user row holds no `pin_hash`. -/
def pinEnvNullFetch : PinEnv :=
  { storedUserId := some (lit "u1")
    cachedHash := none
    fetchResult := .ok none
    bcryptCompare := fun _ _ => false }

/-- A concrete valid password form for witness evaluations. -/
def demoPwForm : PwForm :=
  { currentPassword := lit "oldpass"
    newPassword := lit "newpass123"
    confirmPassword := lit "newpass123" }

/-- A concrete authenticated, not-yet-unlocked guard input. -/
def demoGuardInput : GuardInput :=
  { isAuthenticated := true
    currentUserId := some (lit "u1")
    sessionUnlocked := false }

theorem includes_iff (t k : Str) : includes t k = true ↔ k <:+: t := by
  simp [includes]

theorem matchesPattern_iff (t : Str) (ks : List Str) :
    matchesPattern t ks = true ↔ ∀ k ∈ ks, k <:+: t := by
  simp [matchesPattern, List.all_eq_true, includes]

theorem infix_map (f : Char → Char) {l₁ l₂ : Str} (h : l₁ <:+: l₂) :
    l₁.map f <:+: l₂.map f := by
  obtain ⟨s, u, rfl⟩ := h
  exact ⟨s.map f, u.map f, by simp⟩

theorem parseWaybillIntent_action (o : NLPOracle) (st : AIState) (t : Str) :
    (parseWaybillIntent o st t).action = .create_waybill := rfl

theorem parseAssetIntent_action (o : NLPOracle) (t : Str) :
    (parseAssetIntent o t).action = .add_asset := rfl

theorem parseReturnIntent_action (st : AIState) (t : Str) :
    (parseReturnIntent st t).action = .process_return := rfl

theorem parseSiteIntent_action (o : NLPOracle) (t : Str) :
    (parseSiteIntent o t).action = .create_site := rfl

theorem parseInventoryCheckIntent_action (st : AIState) (t : Str) :
    (parseInventoryCheckIntent st t).action = .check_inventory := rfl

theorem parseAnalyticsIntent_action (st : AIState) (t : Str) :
    (parseAnalyticsIntent st t).action = .view_analytics := rfl

theorem waybillGroup_cond (t : Str) :
    (matchesPattern t [lit "create", lit "waybill"] ||
     matchesPattern t [lit "new", lit "waybill"] ||
     matchesPattern t [lit "send", lit "site"] ||
     matchesPattern t [lit "dispatch"]) = matchesGroup t waybillGroup := by
  simp [matchesGroup, waybillGroup, Bool.or_assoc]

theorem assetGroup_cond (t : Str) :
    (matchesPattern t [lit "add", lit "asset"] ||
     matchesPattern t [lit "new", lit "asset"] ||
     matchesPattern t [lit "add", lit "item"] ||
     matchesPattern t [lit "create", lit "asset"]) = matchesGroup t assetGroup := by
  simp [matchesGroup, assetGroup, Bool.or_assoc]

theorem returnGroup_cond (t : Str) :
    (matchesPattern t [lit "process", lit "return"] ||
     matchesPattern t [lit "return", lit "from"] ||
     matchesPattern t [lit "receive", lit "back"]) = matchesGroup t returnGroup := by
  simp [matchesGroup, returnGroup, Bool.or_assoc]

theorem siteGroup_cond (t : Str) :
    (matchesPattern t [lit "create", lit "site"] ||
     matchesPattern t [lit "add", lit "site"] ||
     matchesPattern t [lit "new", lit "site"]) = matchesGroup t siteGroup := by
  simp [matchesGroup, siteGroup, Bool.or_assoc]

theorem inventoryGroup_cond (t : Str) :
    (matchesPattern t [lit "check", lit "inventory"] ||
     matchesPattern t [lit "show", lit "stock"] ||
     matchesPattern t [lit "inventory", lit "level"] ||
     matchesPattern t [lit "how", lit "many"]) = matchesGroup t inventoryGroup := by
  simp [matchesGroup, inventoryGroup, Bool.or_assoc]

theorem analyticsGroup_cond (t : Str) :
    (matchesPattern t [lit "show", lit "analytics"] ||
     matchesPattern t [lit "view", lit "analytics"] ||
     matchesPattern t [lit "report"] ||
     matchesPattern t [lit "statistics"]) = matchesGroup t analyticsGroup := by
  simp [matchesGroup, analyticsGroup, Bool.or_assoc]

theorem waybillGroup_parse : waybillGroup.parse = (parseWaybillIntent) := rfl

theorem waybillGroup_action_eq : waybillGroup.action = .create_waybill := rfl

theorem assetGroup_parse : assetGroup.parse = (fun o _st text => parseAssetIntent o text) := rfl

theorem assetGroup_action_eq : assetGroup.action = .add_asset := rfl

theorem returnGroup_parse : returnGroup.parse = (fun _o st text => parseReturnIntent st text) := rfl

theorem returnGroup_action_eq : returnGroup.action = .process_return := rfl

theorem siteGroup_parse : siteGroup.parse = (fun o _st text => parseSiteIntent o text) := rfl

theorem siteGroup_action_eq : siteGroup.action = .create_site := rfl

theorem inventoryGroup_parse : inventoryGroup.parse = (fun _o st text => parseInventoryCheckIntent st text) := rfl

theorem inventoryGroup_action_eq : inventoryGroup.action = .check_inventory := rfl

theorem analyticsGroup_parse : analyticsGroup.parse = (fun _o st text => parseAnalyticsIntent st text) := rfl

theorem analyticsGroup_action_eq : analyticsGroup.action = .view_analytics := rfl

/-- C1: `identifyIntent` tests the fixed ordered list of keyword groups
(waybill creation, asset addition, return processing, site creation,
inventory check, analytics) and returns the result of the first group whose
pattern matches — an input matching several groups resolves to the earliest
one — and when no group matches it returns the `unknown` intent with
confidence 0, empty parameters and empty missing parameters. -/
theorem assistant_identifyIntent_first_group (o : NLPOracle) (st : AIState)
    (input : Str) :
    match intentGroups.find? (matchesGroup (toLowerStr input)) with
    | some g =>
        identifyIntent o st input = g.parse o st (toLowerStr input) ∧
        (identifyIntent o st input).action = g.action
    | none => identifyIntent o st input = unknownIntent := by
  cases h1 : matchesGroup (toLowerStr input) waybillGroup with
  | true =>
    have hf : intentGroups.find? (matchesGroup (toLowerStr input)) =
        some waybillGroup := by
      simp only [intentGroups]
      rw [List.find?_cons_of_pos _ h1]
    rw [hf]
    exact ⟨by simp [identifyIntent, waybillGroup_cond, assetGroup_cond, returnGroup_cond, siteGroup_cond, inventoryGroup_cond, analyticsGroup_cond, h1, waybillGroup_parse],
      by simp [identifyIntent, waybillGroup_cond, assetGroup_cond, returnGroup_cond, siteGroup_cond, inventoryGroup_cond, analyticsGroup_cond, h1, parseWaybillIntent_action, waybillGroup_action_eq]⟩
  | false =>
  cases h2 : matchesGroup (toLowerStr input) assetGroup with
  | true =>
    have hf : intentGroups.find? (matchesGroup (toLowerStr input)) =
        some assetGroup := by
      simp only [intentGroups]
      rw [List.find?_cons_of_neg _ (by simp [h1]),
        List.find?_cons_of_pos _ h2]
    rw [hf]
    exact ⟨by simp [identifyIntent, waybillGroup_cond, assetGroup_cond, returnGroup_cond, siteGroup_cond, inventoryGroup_cond, analyticsGroup_cond, h1, h2, assetGroup_parse],
      by simp [identifyIntent, waybillGroup_cond, assetGroup_cond, returnGroup_cond, siteGroup_cond, inventoryGroup_cond, analyticsGroup_cond, h1, h2, parseAssetIntent_action, assetGroup_action_eq]⟩
  | false =>
  cases h3 : matchesGroup (toLowerStr input) returnGroup with
  | true =>
    have hf : intentGroups.find? (matchesGroup (toLowerStr input)) =
        some returnGroup := by
      simp only [intentGroups]
      rw [List.find?_cons_of_neg _ (by simp [h1]),
        List.find?_cons_of_neg _ (by simp [h2]),
        List.find?_cons_of_pos _ h3]
    rw [hf]
    exact ⟨by simp [identifyIntent, waybillGroup_cond, assetGroup_cond, returnGroup_cond, siteGroup_cond, inventoryGroup_cond, analyticsGroup_cond, h1, h2, h3, returnGroup_parse],
      by simp [identifyIntent, waybillGroup_cond, assetGroup_cond, returnGroup_cond, siteGroup_cond, inventoryGroup_cond, analyticsGroup_cond, h1, h2, h3, parseReturnIntent_action, returnGroup_action_eq]⟩
  | false =>
  cases h4 : matchesGroup (toLowerStr input) siteGroup with
  | true =>
    have hf : intentGroups.find? (matchesGroup (toLowerStr input)) =
        some siteGroup := by
      simp only [intentGroups]
      rw [List.find?_cons_of_neg _ (by simp [h1]),
        List.find?_cons_of_neg _ (by simp [h2]),
        List.find?_cons_of_neg _ (by simp [h3]),
        List.find?_cons_of_pos _ h4]
    rw [hf]
    exact ⟨by simp [identifyIntent, waybillGroup_cond, assetGroup_cond, returnGroup_cond, siteGroup_cond, inventoryGroup_cond, analyticsGroup_cond, h1, h2, h3, h4, siteGroup_parse],
      by simp [identifyIntent, waybillGroup_cond, assetGroup_cond, returnGroup_cond, siteGroup_cond, inventoryGroup_cond, analyticsGroup_cond, h1, h2, h3, h4, parseSiteIntent_action, siteGroup_action_eq]⟩
  | false =>
  cases h5 : matchesGroup (toLowerStr input) inventoryGroup with
  | true =>
    have hf : intentGroups.find? (matchesGroup (toLowerStr input)) =
        some inventoryGroup := by
      simp only [intentGroups]
      rw [List.find?_cons_of_neg _ (by simp [h1]),
        List.find?_cons_of_neg _ (by simp [h2]),
        List.find?_cons_of_neg _ (by simp [h3]),
        List.find?_cons_of_neg _ (by simp [h4]),
        List.find?_cons_of_pos _ h5]
    rw [hf]
    exact ⟨by simp [identifyIntent, waybillGroup_cond, assetGroup_cond, returnGroup_cond, siteGroup_cond, inventoryGroup_cond, analyticsGroup_cond, h1, h2, h3, h4, h5, inventoryGroup_parse],
      by simp [identifyIntent, waybillGroup_cond, assetGroup_cond, returnGroup_cond, siteGroup_cond, inventoryGroup_cond, analyticsGroup_cond, h1, h2, h3, h4, h5, parseInventoryCheckIntent_action, inventoryGroup_action_eq]⟩
  | false =>
  cases h6 : matchesGroup (toLowerStr input) analyticsGroup with
  | true =>
    have hf : intentGroups.find? (matchesGroup (toLowerStr input)) =
        some analyticsGroup := by
      simp only [intentGroups]
      rw [List.find?_cons_of_neg _ (by simp [h1]),
        List.find?_cons_of_neg _ (by simp [h2]),
        List.find?_cons_of_neg _ (by simp [h3]),
        List.find?_cons_of_neg _ (by simp [h4]),
        List.find?_cons_of_neg _ (by simp [h5]),
        List.find?_cons_of_pos _ h6]
    rw [hf]
    exact ⟨by simp [identifyIntent, waybillGroup_cond, assetGroup_cond, returnGroup_cond, siteGroup_cond, inventoryGroup_cond, analyticsGroup_cond, h1, h2, h3, h4, h5, h6, analyticsGroup_parse],
      by simp [identifyIntent, waybillGroup_cond, assetGroup_cond, returnGroup_cond, siteGroup_cond, inventoryGroup_cond, analyticsGroup_cond, h1, h2, h3, h4, h5, h6, parseAnalyticsIntent_action, analyticsGroup_action_eq]⟩
  | false =>
  have hf : intentGroups.find? (matchesGroup (toLowerStr input)) = none := by
    simp only [intentGroups]
    rw [List.find?_cons_of_neg _ (by simp [h1]),
      List.find?_cons_of_neg _ (by simp [h2]),
      List.find?_cons_of_neg _ (by simp [h3]),
      List.find?_cons_of_neg _ (by simp [h4]),
      List.find?_cons_of_neg _ (by simp [h5]),
      List.find?_cons_of_neg _ (by simp [h6])]
    rfl
  rw [hf]
  simp [identifyIntent, waybillGroup_cond, assetGroup_cond, returnGroup_cond, siteGroup_cond, inventoryGroup_cond, analyticsGroup_cond, h1, h2, h3, h4, h5, h6]

/-- C2: `matchesPattern` succeeds exactly when every keyword is a contiguous
substring of the lowercased input (no word-boundary test), and any input
containing both "how" and "many" anywhere — even inside longer words — is
classified `check_inventory` when none of the four earlier pattern groups
matched. -/
theorem assistant_matchesPattern_substring (input : Str) :
    (∀ keywords, matchesPattern (toLowerStr input) keywords = true ↔
      ∀ k ∈ keywords, k <:+: toLowerStr input) ∧
    (∀ (o : NLPOracle) (st : AIState),
      lit "how" <:+: input → lit "many" <:+: input →
      matchesGroup (toLowerStr input) waybillGroup = false →
      matchesGroup (toLowerStr input) assetGroup = false →
      matchesGroup (toLowerStr input) returnGroup = false →
      matchesGroup (toLowerStr input) siteGroup = false →
      (identifyIntent o st input).action = .check_inventory) := by
  refine ⟨fun keywords => matchesPattern_iff _ keywords, ?_⟩
  intro o st hhow hmany h1 h2 h3 h4
  have ehow : (lit "how").map Char.toLower = lit "how" := by decide
  have emany : (lit "many").map Char.toLower = lit "many" := by decide
  have hhow' : lit "how" <:+: toLowerStr input := by
    have := infix_map Char.toLower hhow
    rwa [ehow] at this
  have hmany' : lit "many" <:+: toLowerStr input := by
    have := infix_map Char.toLower hmany
    rwa [emany] at this
  have hm : matchesPattern (toLowerStr input) [lit "how", lit "many"] = true := by
    rw [matchesPattern_iff]
    intro k hk
    rcases List.mem_cons.mp hk with rfl | hk
    · exact hhow'
    rcases List.mem_cons.mp hk with rfl | hk
    · exact hmany'
    · simp at hk
  have h5 : matchesGroup (toLowerStr input) inventoryGroup = true := by
    simp [matchesGroup, inventoryGroup, hm]
  simp [identifyIntent, waybillGroup_cond, assetGroup_cond, returnGroup_cond,
    siteGroup_cond, inventoryGroup_cond, h1, h2, h3, h4, h5,
    parseInventoryCheckIntent_action]

theorem assistant_matchesPattern_substring_witness :
    matchesPattern (toLowerStr (lit "showmanyhow")) [lit "how", lit "many"] = true ∧
    (identifyIntent noOracle emptyState (lit "showmanyhow")).action =
      .check_inventory := by
  refine ⟨by decide, ?_⟩
  exact (assistant_matchesPattern_substring (lit "showmanyhow")).2 noOracle
    emptyState (by decide) (by decide) (by decide) (by decide) (by decide)
    (by decide)

/-- C6: for each recognized form-opening intent (`create_waybill`,
`add_asset`, `process_return`, `create_site`) with no missing parameters and
a permitted role, `processInput` succeeds with an `open_form` suggestion
whose `prefillData` is exactly the parameters the parser extracted. -/
theorem assistant_processInput_open_form (o : NLPOracle) (st : AIState)
    (input : Str)
    (hact : (identifyIntent o st input).action ∈
      [AIAction.create_waybill, .add_asset, .process_return, .create_site])
    (hmiss : (identifyIntent o st input).missingParameters = [])
    (hperm : (checkPermissions st.userRole
      (identifyIntent o st input).action).allowed = true) :
    (processInput o st input).1.success = true ∧
    (processInput o st input).1.suggestedAction =
      some ⟨.open_form,
        some (.form (formTypeOf (identifyIntent o st input).action)
          (identifyIntent o st input).parameters)⟩ := by
  simp only [List.mem_cons, List.not_mem_nil, or_false] at hact
  rcases hact with h | h | h | h <;>
    (rw [h] at hperm
     simp [processInput, hperm, hmiss, generateActionResponse, h, formTypeOf])

set_option maxRecDepth 4000 in
theorem assistant_processInput_open_form_witness :
    (processInput noOracle demoState
      (lit "create waybill to alpha with pump")).1.success = true ∧
    (processInput noOracle demoState
      (lit "create waybill to alpha with pump")).1.suggestedAction =
      some ⟨.open_form,
        some (.form (formTypeOf (identifyIntent noOracle demoState
            (lit "create waybill to alpha with pump")).action)
          (identifyIntent noOracle demoState
            (lit "create waybill to alpha with pump")).parameters)⟩ :=
  assistant_processInput_open_form noOracle demoState
    (lit "create waybill to alpha with pump") (by decide) (by decide)
    (by decide)

/-- C7: `processInput` never modifies the service state — the role and the
four context lists after a call are those before it — while `updateContext`
replaces exactly the four context lists, keeping the role (and the
constructor sets all five fields). -/
theorem assistant_processInput_frame (o : NLPOracle) (st : AIState)
    (input : Str) :
    ((processInput o st input).2.userRole = st.userRole ∧
     (processInput o st input).2.assets = st.assets ∧
     (processInput o st input).2.sites = st.sites ∧
     (processInput o st input).2.employees = st.employees ∧
     (processInput o st input).2.vehicles = st.vehicles) ∧
    (∀ a s e v, updateContext st a s e v =
      { userRole := st.userRole, assets := a, sites := s,
        employees := e, vehicles := v }) := by
  have hst : (processInput o st input).2 = st := by
    simp only [processInput]
    split
    · rfl
    · split
      · rfl
      · rfl
  exact ⟨by rw [hst]; exact ⟨rfl, rfl, rfl, rfl, rfl⟩, fun a s e v => rfl⟩

theorem identifyIntent_action_mem (o : NLPOracle) (st : AIState)
    (input : Str) :
    (identifyIntent o st input).action ∈
      [AIAction.create_waybill, .add_asset, .process_return, .create_site,
       .check_inventory, .view_analytics, .unknown] := by
  simp only [identifyIntent]
  split
  · simp [parseWaybillIntent_action]
  split
  · simp [parseAssetIntent_action]
  split
  · simp [parseReturnIntent_action]
  split
  · simp [parseSiteIntent_action]
  split
  · simp [parseInventoryCheckIntent_action]
  split
  · simp [parseAnalyticsIntent_action]
  simp [unknownIntent]

theorem checkPermissions_unknown (r : UserRole) :
    checkPermissions r .unknown =
      { allowed := false, message := deniedMessage r .unknown } := by
  cases r <;> rfl

/-- C9: `unknown` appears in no role's permission list, so an input matching
no intent pattern is rejected by the permission check with the
permission-denied message for every role, and whenever `processInput`
reaches `generateActionResponse` the action is one of the six handled cases
— the default "not sure" branch is unreachable through `processInput`. -/
theorem assistant_unknown_denied :
    (∀ r : UserRole, AIAction.unknown ∉ rolePermissions r) ∧
    (∀ (o : NLPOracle) (st : AIState) (input : Str),
      (identifyIntent o st input).action = .unknown →
      (processInput o st input).1 =
        { success := false,
          message := deniedMessage st.userRole .unknown,
          intent := some (identifyIntent o st input),
          suggestedAction := none }) ∧
    (∀ (o : NLPOracle) (st : AIState) (input : Str),
      (checkPermissions st.userRole
        (identifyIntent o st input).action).allowed = true →
      (identifyIntent o st input).missingParameters = [] →
      (identifyIntent o st input).action ∈
        [AIAction.create_waybill, .add_asset, .process_return,
         .check_inventory, .view_analytics, .create_site]) := by
  refine ⟨fun r => by cases r <;> decide, ?_, ?_⟩
  · intro o st input h
    simp [processInput, h, checkPermissions_unknown]
  · intro o st input hperm _hmiss
    have hmem := identifyIntent_action_mem o st input
    simp only [List.mem_cons, List.not_mem_nil, or_false] at hmem ⊢
    rcases hmem with h | h | h | h | h | h | h
    · exact Or.inl h
    · exact Or.inr (Or.inl h)
    · exact Or.inr (Or.inr (Or.inl h))
    · exact Or.inr (Or.inr (Or.inr (Or.inr (Or.inr h))))
    · exact Or.inr (Or.inr (Or.inr (Or.inl h)))
    · exact Or.inr (Or.inr (Or.inr (Or.inr (Or.inl h))))
    · rw [h, checkPermissions_unknown] at hperm
      cases hperm

theorem assistant_unknown_denied_witness :
    (processInput noOracle emptyState (lit "xyzzy")).1 =
      { success := false,
        message := deniedMessage emptyState.userRole .unknown,
        intent := some (identifyIntent noOracle emptyState (lit "xyzzy")),
        suggestedAction := none } :=
  assistant_unknown_denied.2.1 noOracle emptyState (lit "xyzzy") (by decide)

theorem handleDigit_le (p : Str) (d : Char) (h : p.length ≤ maxLength) :
    ((handleDigit p d).1).length ≤ maxLength := by
  unfold handleDigit
  split
  · exact h
  · rename_i hlt
    simp only [not_le] at hlt
    simp [List.length_append]
    omega

theorem pressDigits_le (digits : List Char) :
    ∀ p : Str, p.length ≤ maxLength →
      (pressDigits p digits).length ≤ maxLength := by
  induction digits with
  | nil => intro p h; exact h
  | cons d ds ih =>
    intro p h
    exact ih _ (handleDigit_le p d h)

/-- C3: starting from the empty PIN, any sequence of digit presses leaves
the PIN at most `maxLength` (4) digits long; `handleDigit` leaves a 4-digit
PIN unchanged; and `verifyPin` is scheduled exactly when the press makes the
PIN reach length 4. -/
theorem pinlock_pin_bounded (pin p : Str) (d c : Char) (digits : List Char)
    (h4 : pin.length = maxLength) :
    (pressDigits [] digits).length ≤ maxLength ∧
    (handleDigit pin d).1 = pin ∧
    ((handleDigit p c).2 = true ↔
      (p.length < maxLength ∧ (handleDigit p c).1.length = maxLength)) := by
  refine ⟨pressDigits_le digits [] (by simp [maxLength]), ?_, ?_⟩
  · unfold handleDigit
    rw [if_pos (le_of_eq h4.symm)]
  · unfold handleDigit
    split
    · rename_i hge
      simp only [not_le] at *
      constructor
      · intro hfalse
        cases hfalse
      · rintro ⟨hlt, _⟩
        omega
    · rename_i hlt
      simp only [not_le] at hlt
      simp [List.length_append]
      omega

theorem pinlock_pin_bounded_witness :
    (pressDigits [] ['1', '2', '3', '4', '5']).length ≤ maxLength ∧
    (handleDigit (lit "1234") '5').1 = lit "1234" ∧
    ((handleDigit (lit "123") '4').2 = true ↔
      ((lit "123").length < maxLength ∧
        (handleDigit (lit "123") '4').1.length = maxLength)) :=
  pinlock_pin_bounded (lit "1234") (lit "123") '5' '4' ['1', '2', '3', '4', '5']
    (by decide)

/-- C4: with a stored PIN hash available, `verifyPin` unlocks exactly when
the third-party bcrypt comparison succeeds; on a failed comparison it sets
the error "Incorrect PIN", clears the PIN and stays locked.  The statement
is parametric in the bcrypt oracle: the component performs no comparison of
its own. -/
theorem pinlock_verifyPin_bcrypt (env : PinEnv) (enteredPin hash : Str)
    (hu : env.storedUserId.isSome = true)
    (hh : resolvedHash env = some hash) :
    (verifyPin env enteredPin).unlocked = env.bcryptCompare enteredPin hash ∧
    (env.bcryptCompare enteredPin hash = false →
      (verifyPin env enteredPin).error = some (lit "Incorrect PIN") ∧
      (verifyPin env enteredPin).pin = [] ∧
      (verifyPin env enteredPin).unlocked = false) := by
  cases hid : env.storedUserId with
  | none => rw [hid] at hu; cases hu
  | some uid =>
    cases hc : env.cachedHash with
    | some h' =>
      have hh' : h' = hash := by
        simp [resolvedHash, hc] at hh
        exact hh
      subst hh'
      cases hb : env.bcryptCompare enteredPin h' <;>
        simp [verifyPin, pinCompareStep, hid, hc, hb]
    | none =>
      cases hf : env.fetchResult with
      | ok oh =>
        cases oh with
        | some h' =>
          have hh' : h' = hash := by
            simp [resolvedHash, hc, hf] at hh
            exact hh
          subst hh'
          cases hb : env.bcryptCompare enteredPin h' <;>
            simp [verifyPin, pinCompareStep, hid, hc, hf, hb]
        | none => simp [resolvedHash, hc, hf] at hh
      | dbError => simp [resolvedHash, hc, hf] at hh
      | throwNet => simp [resolvedHash, hc, hf] at hh

theorem pinlock_verifyPin_bcrypt_witness :
    (verifyPin pinEnvCached (lit "1111")).error = some (lit "Incorrect PIN") ∧
    (verifyPin pinEnvCached (lit "1111")).pin = [] ∧
    (verifyPin pinEnvCached (lit "1111")).unlocked = false :=
  (pinlock_verifyPin_bcrypt pinEnvCached (lit "1111") (lit "hashA")
    (by decide) (by decide)).2 (by decide)

/-- C5 counterexample: with no cached hash and a fetch that succeeds but
returns no stored hash, no hash is available after the fetch step, yet
`verifyPin` unlocks with no error — contrary to the claim that it would fail
with the OFFLINE error and stay locked. -/
theorem pinlock_offline_claim_counterexample :
    resolvedHash pinEnvNullFetch = none ∧
    (verifyPin pinEnvNullFetch (lit "0000")).unlocked = true ∧
    (verifyPin pinEnvNullFetch (lit "0000")).error = none := by decide

/-- C5 (amended): when no hash is cached, `verifyPin` fetches the remote
hash and caches it on success, and once a hash is cached the result does not
depend on the fetch outcome; if the fetch fails (database error or network
exception) verification fails with the OFFLINE error and does not unlock;
if the fetch succeeds but reports no stored hash, the screen unlocks without
any comparison. -/
theorem pinlock_verifyPin_cache (env : PinEnv) (p hash u : Str)
    (hu : env.storedUserId = some u) (hc : env.cachedHash = none) :
    (env.fetchResult = .ok (some hash) →
      (verifyPin env p).cachedWrite = some hash) ∧
    (env.fetchResult = .dbError ∨ env.fetchResult = .throwNet →
      (verifyPin env p).unlocked = false ∧
      (verifyPin env p).error =
        some (lit "OFFLINE: Cannot verify PIN. Connect to internet.")) ∧
    (env.fetchResult = .ok none → (verifyPin env p).unlocked = true) ∧
    (∀ (env' : PinEnv) (fr fr' : FetchRes), env'.cachedHash.isSome = true →
      verifyPin { env' with fetchResult := fr } p =
        verifyPin { env' with fetchResult := fr' } p) := by
  refine ⟨?_, ?_, ?_, ?_⟩
  · intro hf
    cases hb : env.bcryptCompare p hash <;>
      simp [verifyPin, pinCompareStep, hu, hc, hf, hb]
  · rintro (hf | hf) <;> simp [verifyPin, hu, hc, hf]
  · intro hf
    simp [verifyPin, hu, hc, hf]
  · intro env' fr fr' hch
    cases hcs : env'.cachedHash with
    | none => rw [hcs] at hch; cases hch
    | some h' =>
      cases hus : env'.storedUserId <;>
        simp [verifyPin, pinCompareStep, hus, hcs]

theorem pinlock_verifyPin_cache_witness :
    (verifyPin pinEnvFetchOk (lit "1234")).cachedWrite = some (lit "hashA") ∧
    verifyPin { pinEnvCached with fetchResult := .dbError } (lit "1234") =
      verifyPin { pinEnvCached with fetchResult := .ok none } (lit "1234") :=
  ⟨(pinlock_verifyPin_cache pinEnvFetchOk (lit "1234") (lit "hashA")
      (lit "u1") (by decide) (by decide)).1 (by decide),
   (pinlock_verifyPin_cache pinEnvFetchOk (lit "1234") (lit "hashA")
      (lit "u1") (by decide) (by decide)).2.2.2 pinEnvCached .dbError
      (.ok none) (by decide)⟩

/-- C8: when the form passes validation and the update call rejects, the
handler reports only the "Failed to change password" toast, keeps the dialog
open and leaves the fields unchanged; the fields are cleared and the dialog
closed exactly on a successful update of a validated form. -/
theorem securitypanel_password_change (form : PwForm)
    (hv : passesValidation form = true) :
    (handlePasswordChange form false =
      { toasts := [(true, lit "Failed to change password")],
        form := form, dialogOpen := true }) ∧
    (handlePasswordChange form true =
      { toasts := [(false, lit "Password changed successfully")],
        form := { currentPassword := [], newPassword := [],
                  confirmPassword := [] },
        dialogOpen := false }) ∧
    (∀ (f : PwForm) (b : Bool), (handlePasswordChange f b).dialogOpen = false →
      passesValidation f = true ∧ b = true ∧
      (handlePasswordChange f b).form =
        { currentPassword := [], newPassword := [],
          confirmPassword := [] }) := by
  simp only [passesValidation, Bool.and_eq_true, decide_eq_true_eq] at hv
  obtain ⟨⟨⟨hv1, hv2⟩, hv3⟩, hv4⟩ := hv
  have hv2' : strTrim form.confirmPassword ≠ [] := by
    rw [← hv3]; exact hv2
  have hv4' : ¬ form.confirmPassword.length < 8 := by
    rw [← hv3]; exact Nat.not_lt.mpr hv4
  refine ⟨?_, ?_, ?_⟩
  · simp [handlePasswordChange, hv1, hv2, hv3, hv2', hv4', Nat.not_lt.mpr hv4]
  · simp [handlePasswordChange, hv1, hv2, hv3, hv2', hv4', Nat.not_lt.mpr hv4]
  · intro f b hb
    simp only [handlePasswordChange] at hb
    split at hb
    · cases hb
    split at hb
    · cases hb
    split at hb
    · cases hb
    split at hb
    · cases hb
    split at hb
    · rename_i hf1 hf2 hf3 hf4 hf5
      refine ⟨?_, hf5, ?_⟩
      · have he : f.newPassword = f.confirmPassword := not_not.mp hf3
        have hf2' : strTrim f.confirmPassword ≠ [] := by rw [← he]; exact hf2
        have hf4' : 8 ≤ f.confirmPassword.length := by
          rw [← he]; exact Nat.le_of_not_lt hf4
        simp [passesValidation, hf1, hf2, he, hf2', hf4']
      · simp [handlePasswordChange, hf1, hf2, hf3, hf4, hf5]
    · cases hb

theorem securitypanel_password_change_witness :
    handlePasswordChange demoPwForm false =
      { toasts := [(true, lit "Failed to change password")],
        form := demoPwForm, dialogOpen := true } :=
  (securitypanel_password_change demoPwForm (by decide)).1

/-- C10: for an authenticated user with a truthy id and no session unlock
flag, the guard shows the lock screen exactly when the `pin_hash` query
succeeds with a non-null hash; when the query returns no hash or throws, it
writes the session unlock flag and renders the application. -/
theorem pinlockguard_fails_open (inp : GuardInput) (q : QueryRes)
    (ha : inp.isAuthenticated = true) (hid : idTruthy inp = true)
    (hs : inp.sessionUnlocked = false) :
    (guardRender inp q = .lockScreen ↔ hasHash q = true) ∧
    (hasHash q = false →
      (guardState inp q).2 = true ∧ guardRender inp q = .app) := by
  cases q with
  | ok oh =>
    cases oh with
    | some h' => simp [guardRender, guardState, hasHash, ha, hid, hs]
    | none => simp [guardRender, guardState, hasHash, ha, hid, hs]
  | err => simp [guardRender, guardState, hasHash, ha, hid, hs]

theorem pinlockguard_fails_open_witness :
    (guardRender demoGuardInput (QueryRes.ok (some (lit "hashA"))) =
        .lockScreen ↔
      hasHash (QueryRes.ok (some (lit "hashA"))) = true) ∧
    ((guardState demoGuardInput QueryRes.err).2 = true ∧
      guardRender demoGuardInput QueryRes.err = .app) :=
  ⟨(pinlockguard_fails_open demoGuardInput (QueryRes.ok (some (lit "hashA")))
      (by decide) (by decide) (by decide)).1,
   (pinlockguard_fails_open demoGuardInput QueryRes.err (by decide)
      (by decide) (by decide)).2 (by decide)⟩
